import Mathlib

/-!
Shallow embedding of the redbpf loader (`src/redbpf/src/lib.rs`) of the
ingraind repository.

Modelling conventions:

* Machine integers are `Nat` (unsigned) or `Int` (signed); byte buffers are
  `List Nat` whose elements are byte values.
* Fallible Rust code returns `Except LoadError _`; a Rust *panic* (out of
  bounds slice/index, `Option::unwrap` on `None`, `assert!` inside the
  `zero` crate) is modelled as the `none` of an outer `Option` layer.
* External collaborators that are not part of this repository are passed in
  as data: the goblin ELF container parser's output becomes the `ElfObject`
  argument of `Module.parse`, and the kernel syscalls (`bpf_create_map`,
  `bpf_prog_load`, `bpf_attach_kprobe`, `uname`) become a `Kernel` record of
  pure oracles whose results the code inspects exactly as the source does.
* `HashMap<usize, _>` collections keyed by section index are modelled as
  association lists with first-match lookup; the final `drain()` into a
  `Vec` iterates a hash map in unspecified order, so the model keeps the
  keyed list.
-/

deriving instance DecidableEq for Except

namespace Redbpf

/-- `LoadError` from `src/redbpf/src/lib.rs`; payloads irrelevant to the
claims (`goblin::error::Error`, `std::io::Error`) are dropped, and the
source's io-error variant is spelled `IoError` here. -/
inductive LoadError where
  | StringConversion
  | BPF
  | Section (s : String)
  | Parse
  | KernelRelease (s : String)
  | IoError
  | Uname
  | Reloc
deriving DecidableEq, Repr

/-- `ProgramKind` as declared in the source: only `Kprobe` and `Kretprobe`. -/
inductive ProgramKind where
  | Kprobe
  | Kretprobe
deriving DecidableEq, Repr

/-- `bpf_sys::bpf_prog_type_BPF_PROG_TYPE_KPROBE`. -/
def BPF_PROG_TYPE_KPROBE : Nat := 2

/-- `bpf_sys::bpf_probe_attach_type_BPF_PROBE_ENTRY`. -/
def BPF_PROBE_ENTRY : Nat := 0

/-- `bpf_sys::bpf_probe_attach_type_BPF_PROBE_RETURN`. -/
def BPF_PROBE_RETURN : Nat := 1

/-- `bpf_sys::BPF_PSEUDO_MAP_FD` (Linux uapi sentinel for the source
register of a map-reference instruction). -/
def BPF_PSEUDO_MAP_FD : Nat := 1

/-- `ProgramKind::to_prog_type`. -/
def ProgramKind.to_prog_type : ProgramKind → Nat
  | .Kprobe => BPF_PROG_TYPE_KPROBE
  | .Kretprobe => BPF_PROG_TYPE_KPROBE

/-- `ProgramKind::to_attach_type`. -/
def ProgramKind.to_attach_type : ProgramKind → Nat
  | .Kprobe => BPF_PROBE_ENTRY
  | .Kretprobe => BPF_PROBE_RETURN

/-- `ProgramKind::from_section`. -/
def ProgramKind.from_section (section_ : String) : Except LoadError ProgramKind :=
  if section_ = "kretprobe" then .ok .Kretprobe
  else if section_ = "kprobe" then .ok .Kprobe
  else .error (.Section section_)

/-- Reinterpret a `Nat` in `[0, 2^32)` as a two's-complement `i32`. -/
def asI32 (n : Nat) : Int :=
  if n < 2147483648 then (n : Int) else (n : Int) - 4294967296

/-- Reinterpret a `Nat` in `[0, 2^16)` as a two's-complement `i16`. -/
def asI16 (n : Nat) : Int :=
  if n < 32768 then (n : Int) else (n : Int) - 65536

/-- Little-endian `u32` read, as `zero::read::<u32>` performs on the
(little-endian) target. -/
def readU32le (bytes : List Nat) : Nat :=
  bytes.getD 0 0 + 256 * (bytes.getD 1 0 + 256 * (bytes.getD 2 0 + 256 * bytes.getD 3 0))

/-- `bpf_sys::bpf_insn`: `code : u8`, bitfield `dst_reg : 4 / src_reg : 4`,
`off : i16`, `imm : i32`; 8 bytes per instruction. -/
structure BpfInsn where
  code : Nat
  dst_reg : Nat
  src_reg : Nat
  off : Int
  imm : Int
deriving DecidableEq, Repr

/-- `size_of::<bpf_insn>()`. -/
def bpfInsnSize : Nat := 8

/-- Decode one 8-byte chunk into a `bpf_insn` (little-endian fields; the
bitfield byte holds `dst_reg` in the low nibble and `src_reg` in the high
nibble, as bindgen lays it out on a little-endian target). -/
def decodeInsn (b0 b1 b2 b3 b4 b5 b6 b7 : Nat) : BpfInsn :=
  { code := b0
    dst_reg := b1 % 16
    src_reg := b1 / 16 % 16
    off := asI16 (b2 + 256 * b3)
    imm := asI32 (b4 + 256 * (b5 + 256 * (b6 + 256 * b7))) }

/-- Reinterpret consecutive 8-byte chunks as instructions: the element
decoding underlying `zero::read_array::<bpf_insn>`. -/
def decodeInsns : List Nat → List BpfInsn
  | b0 :: b1 :: b2 :: b3 :: b4 :: b5 :: b6 :: b7 :: rest =>
      decodeInsn b0 b1 b2 b3 b4 b5 b6 b7 :: decodeInsns rest
  | _ => []

/-- `zero::read_array::<bpf_insn>`: asserts that the blob length is an
exact multiple of `size_of::<bpf_insn>()` — a panic (`none`) otherwise —
and reinterprets each 8-byte chunk as an instruction. -/
def read_array (bytes : List Nat) : Option (List BpfInsn) :=
  if bytes.length % bpfInsnSize = 0 then some (decodeInsns bytes) else none

/-- `Program` from the source; `pfd` is the attach handle, `fd` the load
handle. -/
structure Program where
  pfd : Option Int
  fd : Option Int
  kind : ProgramKind
  name : String
  code : List BpfInsn
  code_bytes : Int
deriving DecidableEq, Repr

/-- `Map` from the source; `fd` is the kernel handle `bpf_create_map`
returned. -/
structure Map where
  name : String
  kind : Nat
  fd : Int
deriving DecidableEq, Repr

/-- `Rel` from the source. -/
structure Rel where
  shndx : Nat
  target : Nat
  offset : Nat
  sym : Nat
deriving DecidableEq, Repr

/-- The single field of `goblin::elf::Sym` the source reads. -/
structure Sym where
  st_shndx : Nat
deriving DecidableEq, Repr

/-- The fields of `goblin::elf::Reloc` the source reads. -/
structure Reloc where
  r_sym : Nat
  r_offset : Nat
deriving DecidableEq, Repr

/-- A section header as the source consumes it: `sh_name` is already
resolved through `shdr_strtab` (`strings.get_unsafe`, `none` when the name
is not found), the numeric fields come from `goblin::elf::SectionHeader`. -/
structure SectionHeader where
  sh_name : Option String
  sh_type : Nat
  sh_offset : Nat
  sh_size : Nat
  sh_info : Nat
deriving DecidableEq, Repr

/-- `section_header::SHT_PROGBITS`. -/
def SHT_PROGBITS : Nat := 1

/-- `section_header::SHT_REL`. -/
def SHT_REL : Nat := 9

/-- The goblin `Elf` output that `Module::parse` consumes. -/
structure ElfObject where
  section_headers : List SectionHeader
  syms : List Sym
  shdr_relocs : List (Nat × List Reloc)
deriving Repr

/-- The kernel syscall surface used by the source, as pure oracles.
`progLoad` receives the arguments `bpf_prog_load` is given (program type,
name, instructions, instruction byte count, license, kernel version, log
buffer size) and returns the raw fd together with the verifier log the
kernel wrote into the caller's buffer. -/
structure Kernel where
  createMap : Nat → String → Int → Int → Int → Int → Int
  progLoad : Nat → String → List BpfInsn → Int → String → Nat → Nat → Int × List Nat
  attachKprobe : Int → Nat → String → Int
  unameRelease : Option String

/-- `CString::new` fails exactly when the string has an interior NUL. -/
def hasNul (s : String) : Bool := s.data.contains (Char.ofNat 0)

/-- Association-list lookup, standing in for `HashMap::get`. -/
def lookupA {α : Type} : List (Nat × α) → Nat → Option α
  | [], _ => none
  | (k', v) :: rest, k => if k' = k then some v else lookupA rest k

/-- Overwrite the value stored under a key (in-place mutation through
`HashMap::get_mut`). -/
def updateA {α : Type} : List (Nat × α) → Nat → α → List (Nat × α)
  | [], _, _ => []
  | (k', w) :: rest, k, v =>
      (if k' = k then (k', v) else (k', w)) :: updateA rest k v

/-- `HashMap::insert`: replace when present, append otherwise. -/
def insertA {α : Type} (l : List (Nat × α)) (k : Nat) (v : α) : List (Nat × α) :=
  if (lookupA l k).isSome then updateA l k v else l ++ [(k, v)]

/-- `Module` from the source. `programs` and `maps` keep their section-index
keys because the source drains its hash maps in unspecified order. The
license is kept as its bytes. -/
structure Module where
  programs : List (Nat × Program)
  maps : List (Nat × Map)
  license : List Nat
  version : Nat
deriving DecidableEq, Repr

/-- Split a character list at every occurrence of `sep` (the semantics of
`str::split` with a `char` pattern). -/
def splitChar (sep : Char) : List Char → List Char → List (List Char)
  | [], acc => [acc.reverse]
  | c :: rest, acc =>
      if c = sep then acc.reverse :: splitChar sep rest []
      else splitChar sep rest (c :: acc)

/-- `str::splitn(n, sep)`: at most `n` pieces, the last piece keeping the
remaining separators. -/
def splitn (n : Nat) (sep : Char) (s : String) : List String :=
  let parts := splitChar sep s.data []
  if parts.length ≤ n then parts.map (fun l => ⟨l⟩)
  else ((parts.take (n - 1)).map (fun l => ⟨l⟩))
    ++ [⟨List.intercalate [sep] (parts.drop (n - 1))⟩]

/-- `u32::from_str`: optional leading plus sign, decimal digits, value below
`2^32`. -/
def parseU32 (s : String) : Option Nat :=
  let cs := match s.data with
    | '+' :: rest => rest
    | cs => cs
  if cs.isEmpty then none
  else if cs.all (fun c => c.isDigit) then
    let v := cs.foldl (fun a c => a * 10 + (c.toNat - 48)) 0
    if v < 4294967296 then some v else none
  else none

/-- `parse_name` from the source: split the section name once on a slash
into category and specific name. -/
def parse_name (name : String) : Option String × Option String :=
  let names := splitn 2 '/' name
  (names[0]?, names[1]?)

/-- `get_kernel_version` from the source: decode `(major<<16)|(minor<<8)|patch`
from the leading `MAJOR.MINOR.PATCH` of the uname release string up to the
first dash. A failed `uname` call is the `unameRelease = none` oracle. -/
def get_kernel_version (K : Kernel) : Except LoadError Nat :=
  match K.unameRelease with
  | none => .error .Uname
  | some urelease =>
    let release_package := splitn 2 '-' urelease
    match release_package[0]? with
    | none => .error (.KernelRelease urelease)
    | some first =>
      let release := splitn 3 '.' first
      match release[0]?, release[1]?, release[2]? with
      | some smajor, some sminor, some spatch =>
        match parseU32 smajor, parseU32 sminor, parseU32 spatch with
        | some major, some minor, some patch =>
          .ok ((((major <<< 16) % 4294967296) ||| ((minor <<< 8) % 4294967296)) ||| patch)
        | _, _, _ => .error (.KernelRelease urelease)
      | _, _, _ => .error (.KernelRelease urelease)

/-- `get_version` from the source: `zero::read::<u32>` (whose length assert
panics on a short buffer, hence the `Option`), then the `0xFFFFFFFE`
sentinel is substituted by `get_kernel_version().unwrap()` — an `unwrap`
that panics when the kernel version is unavailable. -/
def get_version (K : Kernel) (bytes : List Nat) : Option Nat :=
  if bytes.length < 4 then none
  else
    let version := readU32le bytes
    if version = 0xFFFFFFFE then
      match get_kernel_version K with
      | .ok v => some v
      | .error _ => none
    else some version

/-- `zero::read_str`: the bytes before the first NUL; panics when the
buffer holds no NUL byte. -/
def read_str (bytes : List Nat) : Option (List Nat) :=
  if bytes.contains 0 then some (bytes.takeWhile (fun b => b != 0)) else none

/-- `data` from the source: `&bytes[offset..offset+size]` — a plain slice
that panics (`none`) when the declared range extends past the buffer. -/
def data (bytes : List Nat) (shdr : SectionHeader) : Option (List Nat) :=
  if shdr.sh_offset + shdr.sh_size ≤ bytes.length then
    some ((bytes.drop shdr.sh_offset).take shdr.sh_size)
  else none

/-- `add_rel` from the source: find this section's relocation list in
`shdr_relocs` (the `unwrap` panics when absent) and extend the pending
list, recording `target = sh_info`. -/
def add_rel (rels : List Rel) (shndx : Nat) (shdr : SectionHeader)
    (shdr_relocs : List (Nat × List Reloc)) : Option (List Rel) :=
  match shdr_relocs.find? (fun p => p.1 == shndx) with
  | none => none
  | some pr =>
      some (rels ++ pr.2.map (fun rel =>
        { shndx := shndx, target := shdr.sh_info, offset := rel.r_offset, sym := rel.r_sym }))

/-- `bpf_map_def` from `bpf_sys` (five `u32` fields, 20 bytes). -/
structure BpfMapDef where
  kind : Nat
  key_size : Nat
  value_size : Nat
  max_entries : Nat
  map_flags : Nat
deriving DecidableEq, Repr

/-- `zero::read::<bpf_map_def>` once the length assert has passed. -/
def readMapDef (b : List Nat) : BpfMapDef :=
  { kind := readU32le b
    key_size := readU32le (b.drop 4)
    value_size := readU32le (b.drop 8)
    max_entries := readU32le (b.drop 12)
    map_flags := readU32le (b.drop 16) }

/-- `Map::load` from the source: read the descriptor (`zero::read` asserts
at least 20 bytes — panic otherwise), `CString::new(name)?`, then
`bpf_create_map`; a negative fd is `LoadError::BPF`. -/
def Map.load (K : Kernel) (name : String) (code : List Nat) :
    Option (Except LoadError Map) :=
  if code.length < 20 then none
  else
    let config := readMapDef code
    if hasNul name then some (.error .StringConversion)
    else
      let fd := K.createMap config.kind name (asI32 config.key_size)
        (asI32 config.value_size) (asI32 config.max_entries) (asI32 config.map_flags)
      if fd < 0 then some (.error .BPF)
      else some (.ok { name := name, kind := config.kind, fd := fd })

/-- `Program::new` from the source: `code.len() as i32`, then
`zero::read_array` (whose length assert panics on a section that is not a
whole number of instructions), then the section-kind check. -/
def Program.new (kind : String) (name : String) (code : List Nat) :
    Option (Except LoadError Program) :=
  let code_bytes : Int := asI32 (code.length % 4294967296)
  match read_array code with
  | none => none
  | some insns =>
    match ProgramKind.from_section kind with
    | .error e => some (.error e)
    | .ok k =>
        some (.ok { pfd := none, fd := none, kind := k, name := name,
                    code := insns, code_bytes := code_bytes })

/-- `Program::is_loaded`. -/
def Program.is_loaded (p : Program) : Bool := p.fd.isSome

/-- `Program::is_attached`. -/
def Program.is_attached (p : Program) : Bool := p.pfd.isSome

/-- The byte size of the stack-local verifier log buffer in `Program::load`
(`let mut log_buffer = [0u8; 65535]`, passed with
`mem::size_of_val(&log_buffer)`). -/
def logBufferSize : Nat := 65535

/-- `Program::load` from the source, as state passing on `&mut self`: the
two `CString::new(..)?` conversions, then `bpf_prog_load` with the
`logBufferSize`-byte log buffer. The log the kernel writes (second
component of the oracle result) is discarded exactly as the source drops
`log_buffer`; a negative fd yields `Err(LoadError::BPF)` and leaves `fd`
untouched. -/
def Program.load (p : Program) (K : Kernel) (kernel_version : Nat)
    (license : String) : Program × Except LoadError Int :=
  if hasNul license then (p, .error .StringConversion)
  else if hasNul p.name then (p, .error .StringConversion)
  else
    let res := K.progLoad p.kind.to_prog_type p.name p.code p.code_bytes
      license kernel_version logBufferSize
    let fd := res.1
    if fd < 0 then (p, .error .BPF)
    else ({ p with fd := some fd }, .ok fd)

/-- `Program::attach` from the source: `CString::new(name).unwrap()` and
`self.fd.unwrap()` both panic (`none`); otherwise `bpf_attach_kprobe`, a
negative result being `LoadError::BPF`. -/
def Program.attach (p : Program) (K : Kernel) :
    Option (Program × Except LoadError Int) :=
  if hasNul p.name then none
  else
    match p.fd with
    | none => none
    | some fd =>
      let pfd := K.attachKprobe fd p.kind.to_attach_type p.name
      if pfd < 0 then some (p, .error .BPF)
      else some ({ p with pfd := some pfd }, .ok pfd)

/-- The two instruction writes of `Rel::apply`:
`set_src_reg(BPF_PSEUDO_MAP_FD as u8)` — a 4-bit bitfield store, hence the
`% 16` — and `imm = map.fd`. -/
def patchInsn (i : BpfInsn) (fd : Int) : BpfInsn :=
  { i with src_reg := BPF_PSEUDO_MAP_FD % 16, imm := fd }

/-- The in-place mutation `Rel::apply` performs on the target program's
instruction array at a given index. -/
def patchProgram (p : Program) (idx : Nat) (i : BpfInsn) (fd : Int) : Program :=
  { p with code := p.code.set idx (patchInsn i fd) }

/-- `Rel::apply` from the source: look up the target program
(`LoadError::Reloc` when absent), index the symbol table (a panic when out
of bounds), look up the map by the symbol's section index
(`LoadError::Reloc` when absent), then patch the instruction at
`offset / size_of::<bpf_insn>()` — indexing that panics when out of
bounds — setting its 4-bit `src_reg` bitfield to `BPF_PSEUDO_MAP_FD` and
its `imm` to the map's fd. -/
def Rel.apply (r : Rel) (programs : List (Nat × Program))
    (maps : List (Nat × Map)) (symtab : List Sym) :
    Option (Except LoadError (List (Nat × Program))) :=
  match lookupA programs r.target with
  | none => some (.error .Reloc)
  | some prog =>
    match symtab[r.sym]? with
    | none => none
    | some sym =>
      match lookupA maps sym.st_shndx with
      | none => some (.error .Reloc)
      | some map =>
        match prog.code[r.offset / bpfInsnSize]? with
        | none => none
        | some insn =>
          some (.ok (updateA programs r.target
            (patchProgram prog (r.offset / bpfInsnSize) insn map.fd)))

/-- The relocation loop of `Module::parse`
(`for rel in rels.iter() { rel.apply(..)?; }`). -/
def applyAll : List Rel → List (Nat × Program) → List (Nat × Map) → List Sym →
    Option (Except LoadError (List (Nat × Program)))
  | [], progs, _, _ => some (.ok progs)
  | r :: rest, progs, maps, symtab =>
    match Rel.apply r progs maps symtab with
    | none => none
    | some (.error e) => some (.error e)
    | some (.ok progs2) => applyAll rest progs2 maps symtab

/-- The mutable locals of the section loop in `Module::parse`. -/
structure ParseState where
  rels : List Rel
  programs : List (Nat × Program)
  maps : List (Nat × Map)
  license : List Nat
  version : Nat
deriving DecidableEq, Repr

/-- The initial section-loop state of `Module::parse`. -/
def initState : ParseState :=
  { rels := [], programs := [], maps := [], license := [], version := 0 }

/-- One iteration of the section loop of `Module::parse`: resolve the name
(`LoadError::Section` when the string table has no entry), slice the
content (`data`, a panic on truncation), split the name, then dispatch on
`(sh_type, name head, name tail)` exactly as the source's `match`:
relocation sections feed `add_rel`; PROGBITS sections named `version`,
`license`, `maps/NAME`, `kprobe/NAME` and `kretprobe/NAME` are decoded;
everything else is ignored. -/
def processSection (K : Kernel) (bytes : List Nat)
    (relocs : List (Nat × List Reloc)) (st : ParseState)
    (shndx : Nat) (shdr : SectionHeader) : Option (Except LoadError ParseState) :=
  match shdr.sh_name with
  | none => some (.error (.Section ("Section name not found: " ++ toString shndx)))
  | some name =>
    match data bytes shdr with
    | none => none
    | some content =>
      let mn := (parse_name name).1
      let sn := (parse_name name).2
      if shdr.sh_type = SHT_REL then
        match add_rel st.rels shndx shdr relocs with
        | none => none
        | some rels2 => some (.ok { st with rels := rels2 })
      else if shdr.sh_type = SHT_PROGBITS then
        if mn = some "version" then
          match get_version K content with
          | none => none
          | some v => some (.ok { st with version := v })
        else if mn = some "license" then
          match read_str content with
          | none => none
          | some s => some (.ok { st with license := s ++ st.license })
        else
          match sn with
          | none => some (.ok st)
          | some nm =>
            if mn = some "maps" then
              match Map.load K nm content with
              | none => none
              | some (.error e) => some (.error e)
              | some (.ok mp) =>
                  some (.ok { st with maps := insertA st.maps shndx mp })
            else if mn = some "kprobe" then
              match Program.new "kprobe" nm content with
              | none => none
              | some (.error e) => some (.error e)
              | some (.ok p) =>
                  some (.ok { st with programs := insertA st.programs shndx p })
            else if mn = some "kretprobe" then
              match Program.new "kretprobe" nm content with
              | none => none
              | some (.error e) => some (.error e)
              | some (.ok p) =>
                  some (.ok { st with programs := insertA st.programs shndx p })
            else some (.ok st)
      else some (.ok st)

/-- The section loop of `Module::parse` over the enumerated section
headers. -/
def processSections (K : Kernel) (bytes : List Nat)
    (relocs : List (Nat × List Reloc)) :
    List (Nat × SectionHeader) → ParseState → Option (Except LoadError ParseState)
  | [], st => some (.ok st)
  | (shndx, shdr) :: rest, st =>
    match processSection K bytes relocs st shndx shdr with
    | none => none
    | some (.error e) => some (.error e)
    | some (.ok st2) => processSections K bytes relocs rest st2

/-- `Module::parse` from the source, downstream of goblin's container
parsing (whose output is the `ElfObject` argument): run the section loop,
apply every pending relocation, and assemble the `Module`. -/
def Module.parse (K : Kernel) (bytes : List Nat) (object : ElfObject) :
    Option (Except LoadError Module) :=
  match processSections K bytes object.shdr_relocs
      object.section_headers.enum initState with
  | none => none
  | some (.error e) => some (.error e)
  | some (.ok st) =>
    match applyAll st.rels st.programs st.maps object.syms with
    | none => none
    | some (.error e) => some (.error e)
    | some (.ok programs) =>
      some (.ok { programs := programs, maps := st.maps,
                  license := st.license, version := st.version })

/-! ### Lemmas about the association-list and instruction-array operations -/

theorem lookupA_updateA_self {α : Type} (l : List (Nat × α)) (k : Nat) (v : α)
    (h : (lookupA l k).isSome = true) : lookupA (updateA l k v) k = some v := by
  induction l with
  | nil => simp [lookupA] at h
  | cons p rest ih =>
    obtain ⟨k', w⟩ := p
    by_cases hk : k' = k
    · simp only [updateA]
      rw [if_pos hk]
      simp only [lookupA]
      rw [if_pos hk]
    · simp only [lookupA] at h
      rw [if_neg hk] at h
      simp only [updateA]
      rw [if_neg hk]
      simp only [lookupA]
      rw [if_neg hk]
      exact ih h

theorem lookupA_updateA_ne {α : Type} (l : List (Nat × α)) (k k2 : Nat) (v : α)
    (h : k2 ≠ k) : lookupA (updateA l k v) k2 = lookupA l k2 := by
  induction l with
  | nil => simp [updateA, lookupA]
  | cons p rest ih =>
    obtain ⟨k', w⟩ := p
    by_cases hk : k' = k
    · have hk2 : ¬ k' = k2 := fun hc => h (hc.symm.trans hk)
      simp only [updateA]
      rw [if_pos hk]
      simp only [lookupA]
      rw [if_neg hk2, if_neg hk2]
      exact ih
    · simp only [updateA]
      rw [if_neg hk]
      simp only [lookupA]
      by_cases hk2 : k' = k2
      · rw [if_pos hk2, if_pos hk2]
      · rw [if_neg hk2, if_neg hk2]
        exact ih

theorem lookupA_updateA_isSome {α : Type} (l : List (Nat × α)) (k k2 : Nat)
    (v : α) : (lookupA (updateA l k v) k2).isSome = (lookupA l k2).isSome := by
  induction l with
  | nil => simp [updateA, lookupA]
  | cons p rest ih =>
    obtain ⟨k', w⟩ := p
    by_cases hk : k' = k
    · simp only [updateA]
      rw [if_pos hk]
      simp only [lookupA]
      by_cases hk2 : k' = k2
      · rw [if_pos hk2, if_pos hk2]
        rfl
      · rw [if_neg hk2, if_neg hk2]
        exact ih
    · simp only [updateA]
      rw [if_neg hk]
      simp only [lookupA]
      by_cases hk2 : k' = k2
      · rw [if_pos hk2, if_pos hk2]
      · rw [if_neg hk2, if_neg hk2]
        exact ih

/-! ### The relocation postcondition and how `Rel::apply` establishes it -/

/-- The instruction slot a relocation patches: target section index paired
with `offset / size_of::<bpf_insn>()`. -/
def slot (r : Rel) : Nat × Nat := (r.target, r.offset / bpfInsnSize)

/-- The spec's per-relocation postcondition, decidably: the target program
exists, the symbol resolves, the referenced map exists, and the patched
instruction carries the `BPF_PSEUDO_MAP_FD` source register and the map's
fd as immediate. -/
def relAppliedB (progs : List (Nat × Program)) (maps : List (Nat × Map))
    (symtab : List Sym) (r : Rel) : Bool :=
  ((lookupA progs r.target).bind (fun p =>
    symtab[r.sym]?.bind (fun s =>
      (lookupA maps s.st_shndx).bind (fun m =>
        p.code[r.offset / bpfInsnSize]?.map (fun i =>
          (i.src_reg == BPF_PSEUDO_MAP_FD) && (i.imm == m.fd)))))).getD false

theorem relAppliedB_intro {progs : List (Nat × Program)}
    {maps : List (Nat × Map)} {symtab : List Sym} {r : Rel}
    {p : Program} {s : Sym} {m : Map} {i : BpfInsn}
    (h1 : lookupA progs r.target = some p)
    (h2 : symtab[r.sym]? = some s)
    (h3 : lookupA maps s.st_shndx = some m)
    (h4 : p.code[r.offset / bpfInsnSize]? = some i)
    (h5 : i.src_reg = BPF_PSEUDO_MAP_FD) (h6 : i.imm = m.fd) :
    relAppliedB progs maps symtab r = true := by
  simp [relAppliedB, h1, h2, h3, h4, h5, h6]

theorem relAppliedB_elim {progs : List (Nat × Program)}
    {maps : List (Nat × Map)} {symtab : List Sym} {r : Rel}
    (h : relAppliedB progs maps symtab r = true) :
    ∃ p s m i, lookupA progs r.target = some p ∧
      symtab[r.sym]? = some s ∧
      lookupA maps s.st_shndx = some m ∧
      p.code[r.offset / bpfInsnSize]? = some i ∧
      i.src_reg = BPF_PSEUDO_MAP_FD ∧ i.imm = m.fd := by
  cases h1 : lookupA progs r.target with
  | none => simp [relAppliedB, h1] at h
  | some p =>
    cases h2 : symtab[r.sym]? with
    | none => simp [relAppliedB, h1, h2] at h
    | some s =>
      cases h3 : lookupA maps s.st_shndx with
      | none => simp [relAppliedB, h1, h2, h3] at h
      | some m =>
        cases h4 : p.code[r.offset / bpfInsnSize]? with
        | none => simp [relAppliedB, h1, h2, h3, h4] at h
        | some i =>
          simp only [relAppliedB, h1, h2, h3, h4, Option.some_bind,
            Option.map_some', Option.getD_some, Bool.and_eq_true,
            beq_iff_eq] at h
          exact ⟨p, s, m, i, rfl, rfl, h3, h4, h.1, h.2⟩

theorem apply_ok_destruct {r : Rel} {progs : List (Nat × Program)}
    {maps : List (Nat × Map)} {symtab : List Sym}
    {progs2 : List (Nat × Program)}
    (h : Rel.apply r progs maps symtab = some (.ok progs2)) :
    ∃ prog sym map insn,
      lookupA progs r.target = some prog ∧
      symtab[r.sym]? = some sym ∧
      lookupA maps sym.st_shndx = some map ∧
      prog.code[r.offset / bpfInsnSize]? = some insn ∧
      progs2 = updateA progs r.target
        (patchProgram prog (r.offset / bpfInsnSize) insn map.fd) := by
  cases h1 : lookupA progs r.target with
  | none => simp [Rel.apply, h1] at h
  | some prog =>
    cases h2 : symtab[r.sym]? with
    | none => simp [Rel.apply, h1, h2] at h
    | some sym =>
      cases h3 : lookupA maps sym.st_shndx with
      | none => simp [Rel.apply, h1, h2, h3] at h
      | some map =>
        cases h4 : prog.code[r.offset / bpfInsnSize]? with
        | none => simp [Rel.apply, h1, h2, h3, h4] at h
        | some insn =>
          simp only [Rel.apply, h1, h2, h3, h4, Option.some.injEq,
            Except.ok.injEq] at h
          exact ⟨prog, sym, map, insn, rfl, rfl, h3, h4, h.symm⟩

/-- A successful `Rel::apply` establishes the postcondition for the
relocation it processed. -/
theorem apply_ok_applied {r : Rel} {progs : List (Nat × Program)}
    {maps : List (Nat × Map)} {symtab : List Sym}
    {progs2 : List (Nat × Program)}
    (h : Rel.apply r progs maps symtab = some (.ok progs2)) :
    relAppliedB progs2 maps symtab r = true := by
  obtain ⟨prog, sym, map, insn, h1, h2, h3, h4, rfl⟩ := apply_ok_destruct h
  have hsome : (lookupA progs r.target).isSome = true := by rw [h1]; rfl
  obtain ⟨hlt, -⟩ := List.getElem?_eq_some_iff.mp h4
  have hset : (patchProgram prog (r.offset / bpfInsnSize) insn
      map.fd).code[r.offset / bpfInsnSize]? = some (patchInsn insn map.fd) := by
    unfold patchProgram
    exact List.getElem?_set_self hlt
  exact relAppliedB_intro (lookupA_updateA_self _ _ _ hsome) h2 h3 hset rfl rfl

/-- A successful `Rel::apply` of some other relocation that patches a
different instruction slot preserves the postcondition. -/
theorem apply_preserves_slot {r2 : Rel} {progs : List (Nat × Program)}
    {maps : List (Nat × Map)} {symtab : List Sym}
    {progs2 : List (Nat × Program)} (r : Rel)
    (h : Rel.apply r2 progs maps symtab = some (.ok progs2))
    (hs : slot r ≠ slot r2)
    (hr : relAppliedB progs maps symtab r = true) :
    relAppliedB progs2 maps symtab r = true := by
  obtain ⟨prog2, sym2, map2, insn2, g1, g2, g3, g4, rfl⟩ := apply_ok_destruct h
  obtain ⟨p, s, m, i, h1, h2, h3, h4, h5, h6⟩ := relAppliedB_elim hr
  by_cases ht : r.target = r2.target
  · have hidx : r2.offset / bpfInsnSize ≠ r.offset / bpfInsnSize := by
      intro hc
      exact hs (by simp [slot, ht, hc])
    have hp : p = prog2 := by
      rw [ht] at h1
      rw [h1] at g1
      exact Option.some.inj g1
    have hsome : (lookupA progs r2.target).isSome = true := by rw [g1]; rfl
    have hlook : lookupA (updateA progs r2.target
        (patchProgram prog2 (r2.offset / bpfInsnSize) insn2 map2.fd))
        r.target = some (patchProgram prog2 (r2.offset / bpfInsnSize) insn2 map2.fd) := by
      rw [ht]
      exact lookupA_updateA_self _ _ _ hsome
    refine relAppliedB_intro hlook h2 h3 ?_ h5 h6
    show (patchProgram prog2 (r2.offset / bpfInsnSize) insn2 map2.fd).code[r.offset / bpfInsnSize]?
      = some i
    unfold patchProgram
    show (prog2.code.set (r2.offset / bpfInsnSize) _)[r.offset / bpfInsnSize]? = some i
    rw [List.getElem?_set_ne hidx, ← hp]
    exact h4
  · have hlook : lookupA (updateA progs r2.target
        (patchProgram prog2 (r2.offset / bpfInsnSize) insn2 map2.fd))
        r.target = some p := by
      rw [lookupA_updateA_ne _ _ _ _ ht]
      exact h1
    exact relAppliedB_intro hlook h2 h3 h4 h5 h6

/-- Applying a list of relocations that all patch slots different from
relocation `r`'s preserves `r`'s postcondition. -/
theorem applyAll_preserves {rels : List Rel} {progs : List (Nat × Program)}
    {maps : List (Nat × Map)} {symtab : List Sym}
    {progsF : List (Nat × Program)} (r : Rel)
    (h : applyAll rels progs maps symtab = some (.ok progsF))
    (hs : ∀ r2 ∈ rels, slot r ≠ slot r2)
    (hr : relAppliedB progs maps symtab r = true) :
    relAppliedB progsF maps symtab r = true := by
  induction rels generalizing progs with
  | nil =>
    simp only [applyAll, Option.some.injEq, Except.ok.injEq] at h
    rw [← h]
    exact hr
  | cons r0 rest ih =>
    cases ha : Rel.apply r0 progs maps symtab with
    | none => rw [applyAll, ha] at h; cases h
    | some v =>
      cases v with
      | error e => rw [applyAll, ha] at h; cases h
      | ok progs2 =>
        rw [applyAll, ha] at h
        have hpres := apply_preserves_slot r ha
          (hs r0 (List.mem_cons_self r0 rest)) hr
        exact ih h (fun r2 hr2 => hs r2 (List.mem_cons_of_mem r0 hr2)) hpres

/-- After the full relocation loop succeeds, every relocation in the list
satisfies the postcondition — provided no two relocations patch the same
instruction slot. -/
theorem applyAll_all {rels : List Rel} {progs : List (Nat × Program)}
    {maps : List (Nat × Map)} {symtab : List Sym}
    {progsF : List (Nat × Program)}
    (h : applyAll rels progs maps symtab = some (.ok progsF))
    (hpw : rels.Pairwise (fun a b => slot a ≠ slot b)) :
    ∀ r ∈ rels, relAppliedB progsF maps symtab r = true := by
  induction rels generalizing progs with
  | nil => intro r hr; cases hr
  | cons r0 rest ih =>
    obtain ⟨hhead, htail⟩ := List.pairwise_cons.mp hpw
    cases ha : Rel.apply r0 progs maps symtab with
    | none => rw [applyAll, ha] at h; cases h
    | some v =>
      cases v with
      | error e => rw [applyAll, ha] at h; cases h
      | ok progs2 =>
        rw [applyAll, ha] at h
        intro r hr
        rcases List.mem_cons.mp hr with rfl | hmem
        · exact applyAll_preserves r h hhead (apply_ok_applied ha)
        · exact ih h htail r hmem

/-- Splitting the relocation loop: once a prefix has been applied
successfully, the loop continues from the resulting program collection. -/
theorem applyAll_append_ok {l1 : List Rel} (l2 : List Rel)
    {progs : List (Nat × Program)} {maps : List (Nat × Map)} {symtab : List Sym}
    {progs1 : List (Nat × Program)}
    (h : applyAll l1 progs maps symtab = some (.ok progs1)) :
    applyAll (l1 ++ l2) progs maps symtab = applyAll l2 progs1 maps symtab := by
  induction l1 generalizing progs with
  | nil =>
    simp only [applyAll, Option.some.injEq, Except.ok.injEq] at h
    rw [List.nil_append, h]
  | cons r rest ih =>
    cases ha : Rel.apply r progs maps symtab with
    | none => rw [applyAll, ha] at h; cases h
    | some v =>
      cases v with
      | error e => rw [applyAll, ha] at h; cases h
      | ok progs2 =>
        rw [applyAll, ha] at h
        rw [List.cons_append, applyAll, ha]
        exact ih h

/-- `Rel::apply` never adds or removes programs: it only rewrites the code
of an existing one, so key membership is invariant. -/
theorem apply_lookup_isSome {r : Rel} {progs : List (Nat × Program)}
    {maps : List (Nat × Map)} {symtab : List Sym}
    {progs2 : List (Nat × Program)}
    (h : Rel.apply r progs maps symtab = some (.ok progs2)) (k : Nat) :
    (lookupA progs2 k).isSome = (lookupA progs k).isSome := by
  obtain ⟨prog, sym, map, insn, h1, h2, h3, h4, rfl⟩ := apply_ok_destruct h
  exact lookupA_updateA_isSome _ _ _ _

/-- The relocation loop never adds or removes programs. -/
theorem applyAll_lookup_isSome {rels : List Rel} {progs : List (Nat × Program)}
    {maps : List (Nat × Map)} {symtab : List Sym}
    {progsF : List (Nat × Program)}
    (h : applyAll rels progs maps symtab = some (.ok progsF)) (k : Nat) :
    (lookupA progsF k).isSome = (lookupA progs k).isSome := by
  induction rels generalizing progs with
  | nil =>
    simp only [applyAll, Option.some.injEq, Except.ok.injEq] at h
    rw [h]
  | cons r rest ih =>
    cases ha : Rel.apply r progs maps symtab with
    | none => rw [applyAll, ha] at h; cases h
    | some v =>
      cases v with
      | error e => rw [applyAll, ha] at h; cases h
      | ok progs2 =>
        rw [applyAll, ha] at h
        rw [ih h, apply_lookup_isSome ha]

/-- `Rel::apply` answers `LoadError::Reloc` whenever the target program is
missing, or the symbol resolves but no map is keyed under its section
index. -/
theorem apply_error_of_missing {r : Rel} {progs : List (Nat × Program)}
    {maps : List (Nat × Map)} {symtab : List Sym}
    (hmiss : lookupA progs r.target = none ∨
      ∃ s, symtab[r.sym]? = some s ∧ lookupA maps s.st_shndx = none) :
    Rel.apply r progs maps symtab = some (.error .Reloc) := by
  rcases hmiss with hm | ⟨s, hs, hm⟩
  · simp [Rel.apply, hm]
  · cases hl : lookupA progs r.target with
    | none => simp [Rel.apply, hl]
    | some prog => simp [Rel.apply, hl, hs, hm]

/-- The relocation loop surfaces the first `Rel::apply` error unchanged. -/
theorem applyAll_cons_error {r : Rel} (rest : List Rel)
    {progs : List (Nat × Program)} {maps : List (Nat × Map)} {symtab : List Sym}
    (h : Rel.apply r progs maps symtab = some (.error .Reloc)) :
    applyAll (r :: rest) progs maps symtab = some (.error .Reloc) := by
  rw [applyAll, h]

/-! ### Program lifecycle -/

/-- Program states reachable in the Module lifecycle: created by
`Program::new` during parse, instruction-patched by `Rel::apply`, then
mutated only by `Program::load` and `Program::attach`. -/
inductive Reachable : Program → Prop where
  | new (kind name : String) (code : List Nat) (p : Program)
      (h : Program.new kind name code = some (.ok p)) : Reachable p
  | patch (p : Program) (idx : Nat) (i : BpfInsn) (hp : Reachable p) :
      Reachable { p with code := p.code.set idx i }
  | load (p : Program) (K : Kernel) (kv : Nat) (lic : String)
      (p2 : Program) (r : Except LoadError Int) (hp : Reachable p)
      (h : Program.load p K kv lic = (p2, r)) : Reachable p2
  | attach (p : Program) (K : Kernel) (p2 : Program)
      (r : Except LoadError Int) (hp : Reachable p)
      (h : Program.attach p K = some (p2, r)) : Reachable p2

/-- The program value `Program::new(kind, nm, content)` builds once the
section kind has been recognized. -/
def newProgram (k : ProgramKind) (nm : String) (content : List Nat) : Program :=
  { pfd := none, fd := none, kind := k, name := nm,
    code := decodeInsns content,
    code_bytes := asI32 (content.length % 4294967296) }

/-! ### Concrete fixtures -/

/-- A benign kernel oracle: maps get fd 5, programs fd 3, attachments 4,
and the host release string is `5.15.0-91`. -/
def K0 : Kernel :=
  { createMap := fun _ _ _ _ _ _ => 5
    progLoad := fun _ _ _ _ _ _ _ => (3, [])
    attachKprobe := fun _ _ _ => 4
    unameRelease := some "5.15.0-91" }

/-- A freshly constructed program, `Program::new("kprobe", "foo", [])`. -/
def p0 : Program :=
  { pfd := none, fd := none, kind := .Kprobe, name := "foo", code := [],
    code_bytes := 0 }

/-- The all-zero instruction. -/
def insn0 : BpfInsn := ⟨0, 0, 0, 0, 0⟩

/-- The all-zero instruction patched with `src_reg = 1`, `imm = 5`. -/
def insn0p : BpfInsn := ⟨0, 0, 1, 0, 5⟩

/-- A one-instruction kprobe program named `foo`, as parsed. -/
def progFoo : Program :=
  { pfd := none, fd := none, kind := .Kprobe, name := "foo",
    code := [insn0], code_bytes := 8 }

/-- `progFoo` after the relocation patch with map fd 5. -/
def progFooP : Program :=
  { pfd := none, fd := none, kind := .Kprobe, name := "foo",
    code := [insn0p], code_bytes := 8 }

/-- The map section `maps/m` materialized with fd 5. -/
def mapM : Map := { name := "m", kind := 0, fd := 5 }

/-- An object with one single-instruction kprobe program, one map, and one
relocation section patching instruction 0 of the program through symbol 0. -/
def c1wObj : ElfObject :=
  { section_headers :=
      [ ⟨some "kprobe/foo", 1, 0, 8, 0⟩
      , ⟨some "maps/m", 1, 8, 20, 0⟩
      , ⟨some "", 9, 28, 0, 0⟩ ]
    syms := [⟨1⟩]
    shdr_relocs := [(2, [⟨0, 0⟩])] }

/-- The 28-byte buffer backing `c1wObj`. -/
def c1wBytes : List Nat := List.replicate 28 0

/-- The section-loop state `c1wObj` produces. -/
def c1wState : ParseState :=
  { rels := [⟨2, 0, 0, 0⟩]
    programs := [(0, progFoo)]
    maps := [(1, mapM)]
    license := []
    version := 0 }

/-- The module `c1wObj` parses to: instruction 0 patched with the map's
fd 5 and the pseudo-map-fd source register. -/
def c1wModule : Module :=
  { programs := [(0, progFooP)]
    maps := [(1, mapM)]
    license := []
    version := 0 }

/-- A kernel oracle that hands map `a` fd 3 and every other map fd 4. -/
def c1cxK : Kernel :=
  { createMap := fun _ name _ _ _ _ => if name = "a" then 3 else 4
    progLoad := fun _ _ _ _ _ _ _ => (3, [])
    attachKprobe := fun _ _ _ => 4
    unameRelease := some "5.15.0-91" }

/-- An object whose relocation section carries two relocations patching the
same instruction slot of the same program through two different maps. -/
def c1cxObj : ElfObject :=
  { section_headers :=
      [ ⟨some "kprobe/foo", 1, 0, 16, 0⟩
      , ⟨some "maps/a", 1, 16, 20, 0⟩
      , ⟨some "maps/b", 1, 36, 20, 0⟩
      , ⟨some "", 9, 56, 0, 0⟩ ]
    syms := [⟨1⟩, ⟨2⟩]
    shdr_relocs := [(3, [⟨0, 0⟩, ⟨1, 0⟩])] }

/-- The 56-byte buffer backing `c1cxObj`. -/
def c1cxBytes : List Nat := List.replicate 56 0

/-- An object whose only section is a `version` section holding the
little-endian bytes of `0x00FFFFFE`. -/
def c3Obj : ElfObject :=
  { section_headers := [⟨some "version", 1, 0, 4, 0⟩]
    syms := []
    shdr_relocs := [] }

/-- An object whose only section is a PROGBITS section named `xdp/eth0`. -/
def c4Obj : ElfObject :=
  { section_headers := [⟨some "xdp/eth0", 1, 0, 8, 0⟩]
    syms := []
    shdr_relocs := [] }

/-- An object with a single relocation section whose relocation targets
section 7, where no program exists. -/
def c5wObj : ElfObject :=
  { section_headers := [⟨some "", 9, 0, 0, 7⟩]
    syms := [⟨0⟩]
    shdr_relocs := [(0, [⟨0, 0⟩])] }

/-- The section-loop state `c5wObj` produces. -/
def c5wState : ParseState :=
  { rels := [⟨0, 7, 0, 0⟩]
    programs := [], maps := [], license := [], version := 0 }

/-- An object declaring a `license` section of 100 bytes over a 4-byte
buffer. -/
def c6Obj : ElfObject :=
  { section_headers := [⟨some "license", 1, 0, 100, 0⟩]
    syms := []
    shdr_relocs := [] }

/-- The truncated section header of `c6Obj`. -/
def c6Shdr : SectionHeader := ⟨some "license", 1, 0, 100, 0⟩

/-- An object declaring a 2-byte `version` section: in range of the buffer
but shorter than the fixed 4-byte layout `zero::read::<u32>` asserts. -/
def c6Obj2 : ElfObject :=
  { section_headers := [⟨some "version", 1, 0, 2, 0⟩]
    syms := []
    shdr_relocs := [] }

/-- A kernel whose `prog_load` always fails, writing log `[65]`. -/
def c7K1 : Kernel :=
  { createMap := fun _ _ _ _ _ _ => 5
    progLoad := fun _ _ _ _ _ _ _ => (-1, [65])
    attachKprobe := fun _ _ _ => 4
    unameRelease := none }

/-- A kernel whose `prog_load` always fails, writing log `[66]`. -/
def c7K2 : Kernel :=
  { createMap := fun _ _ _ _ _ _ => 5
    progLoad := fun _ _ _ _ _ _ _ => (-1, [66])
    attachKprobe := fun _ _ _ => 4
    unameRelease := none }

/-- A kernel whose `prog_load` returns the log-buffer-size argument it was
passed, exposing what `Program::load` hands the syscall. -/
def c9K : Kernel :=
  { createMap := fun _ _ _ _ _ _ => 5
    progLoad := fun _ _ _ _ _ _ logsz => ((logsz : Int), [])
    attachKprobe := fun _ _ _ => 4
    unameRelease := none }

/-! ### The claims -/

/-- Claim C1, amended: after `Module::parse` succeeds, and provided no two
pending relocations patch the same instruction slot (same target section
and same `offset / 8`), every applied relocation leaves the target
program's instruction with its source register set to `BPF_PSEUDO_MAP_FD`
and its immediate set to the kernel handle of the map resolved through the
symbol table entry's section index. -/
theorem c1_relocations_applied (K : Kernel) (bytes : List Nat)
    (object : ElfObject) (st : ParseState) (m : Module)
    (hst : processSections K bytes object.shdr_relocs
      object.section_headers.enum initState = some (.ok st))
    (hm : Module.parse K bytes object = some (.ok m))
    (hpw : st.rels.Pairwise (fun a b => slot a ≠ slot b)) :
    ∀ r ∈ st.rels, relAppliedB m.programs m.maps object.syms r = true := by
  simp only [Module.parse, hst] at hm
  cases happ : applyAll st.rels st.programs st.maps object.syms with
  | none => rw [happ] at hm; cases hm
  | some v =>
    cases v with
    | error e => rw [happ] at hm; cases hm
    | ok progsF =>
      rw [happ] at hm
      have hm2 : Module.mk progsF st.maps st.license st.version = m :=
        Except.ok.inj (Option.some.inj hm)
      rw [← hm2]
      exact applyAll_all happ hpw

/-- Claim C1, witness instance: a one-program, one-map, one-relocation
object whose parse leaves instruction 0 patched. -/
theorem c1_relocations_applied_witness :
    relAppliedB c1wModule.programs c1wModule.maps c1wObj.syms
      ⟨2, 0, 0, 0⟩ = true :=
  c1_relocations_applied K0 c1wBytes c1wObj c1wState c1wModule (by decide)
    (by decide) (by simp [c1wState]) ⟨2, 0, 0, 0⟩ (by decide)

/-- Claim C1, counterexample to the unconditioned claim: two relocations
patch the same instruction slot through maps with fds 3 and 4; the parse
succeeds and the first pending relocation was applied, yet its instruction
ends up holding the second map's fd, so the claimed postcondition fails
for it. -/
theorem c1_counterexample :
    ((match processSections c1cxK c1cxBytes c1cxObj.shdr_relocs
        c1cxObj.section_headers.enum initState with
      | some (.ok st) => st.rels
      | _ => []) = [⟨3, 0, 0, 0⟩, ⟨3, 0, 0, 1⟩]) ∧
    ((match Module.parse c1cxK c1cxBytes c1cxObj with
      | some (.ok m) => relAppliedB m.programs m.maps c1cxObj.syms ⟨3, 0, 0, 0⟩
      | _ => true) = false) := by decide

/-- Claim C2: `get_version` substitutes the current kernel release for the
sentinel `0xFFFFFFFE` and passes every other 4-byte little-endian value
through unchanged. -/
theorem c2_version_sentinel (K : Kernel) (bytes : List Nat) (kv : Nat)
    (h4 : 4 ≤ bytes.length) (hk : get_kernel_version K = .ok kv) :
    (readU32le bytes = 0xFFFFFFFE → get_version K bytes = some kv) ∧
    (readU32le bytes ≠ 0xFFFFFFFE →
      get_version K bytes = some (readU32le bytes)) := by
  have hlen : ¬ bytes.length < 4 := Nat.not_lt.mpr h4
  constructor
  · intro hs
    simp [get_version, hlen, hs, hk]
  · intro hs
    simp [get_version, hlen, hs]

/-- Claim C2, witness instance: on a `5.15.0-91` host the sentinel becomes
`(5<<16)|(15<<8)|0 = 331520` while the value 7 passes through. -/
theorem c2_version_sentinel_witness :
    get_version K0 [254, 255, 255, 255] = some 331520 ∧
    get_version K0 [7, 0, 0, 0] = some 7 :=
  ⟨(c2_version_sentinel K0 [254, 255, 255, 255] 331520 (by decide)
      (by decide)).1 (by decide),
   (c2_version_sentinel K0 [7, 0, 0, 0] 331520 (by decide)
      (by decide)).2 (by decide)⟩

/-- Claim C3, counterexample: `0x00FFFFFE` is not the sentinel
`0xFFFFFFFE`, so on a `5.15.0-91` host the parsed `Module.version` is not
`(5<<16)|(15<<8)|0`. -/
theorem c3_counterexample :
    (match Module.parse K0 [254, 255, 255, 0] c3Obj with
      | some (.ok m) => m.version == ((5 <<< 16) ||| ((15 <<< 8) ||| 0))
      | _ => true) = false := by decide

/-- Claim C3, amended: a version section holding `0x00FFFFFE` is passed
through unchanged into `Module.version` — only the exact value
`0xFFFFFFFE` triggers the kernel-release substitution. -/
theorem c3_version_passthrough :
    (match Module.parse K0 [254, 255, 255, 0] c3Obj with
      | some (.ok m) => m.version
      | _ => 0) = 0x00FFFFFE := by decide

/-- Claim C4, amended: a PROGBITS section named `kprobe/SYM` or
`kretprobe/SYM` whose payload is a whole number of instructions (the
length assert of `zero::read_array`; the parse panics otherwise) becomes a
Program of the corresponding kind keyed by its section index, while
PROGBITS sections named `xdp/IFACE` or `socketfilter/IFACE` are ignored,
leaving the parse state unchanged. -/
theorem c4_program_sections (K : Kernel) (bytes : List Nat)
    (relocs : List (Nat × List Reloc)) (st : ParseState) (shndx : Nat)
    (shdr : SectionHeader) (name nm : String) (content : List Nat)
    (hname : shdr.sh_name = some name)
    (htype : shdr.sh_type = SHT_PROGBITS)
    (hdata : data bytes shdr = some content) :
    (parse_name name = (some "kprobe", some nm) →
      content.length % bpfInsnSize = 0 →
      processSection K bytes relocs st shndx shdr = some (.ok { st with
        programs := insertA st.programs shndx (newProgram .Kprobe nm content) })) ∧
    (parse_name name = (some "kretprobe", some nm) →
      content.length % bpfInsnSize = 0 →
      processSection K bytes relocs st shndx shdr = some (.ok { st with
        programs := insertA st.programs shndx (newProgram .Kretprobe nm content) })) ∧
    (parse_name name = (some "xdp", some nm) →
      processSection K bytes relocs st shndx shdr = some (.ok st)) ∧
    (parse_name name = (some "socketfilter", some nm) →
      processSection K bytes relocs st shndx shdr = some (.ok st)) := by
  refine ⟨fun hpn hlen => ?_, fun hpn hlen => ?_, fun hpn => ?_, fun hpn => ?_⟩ <;>
    simp [processSection, hname, hdata, hpn, htype, SHT_REL, SHT_PROGBITS,
      Program.new, read_array, ProgramKind.from_section, newProgram, *]

/-- Claim C4, witness instance: a `kprobe/foo` PROGBITS section becomes a
kprobe Program named `foo` keyed by its section index. -/
theorem c4_program_sections_witness :
    processSection K0 c1wBytes [] initState 0 ⟨some "kprobe/foo", 1, 0, 8, 0⟩
      = some (.ok { initState with
        programs := insertA initState.programs 0
          (newProgram .Kprobe "foo" (List.replicate 8 0)) }) :=
  (c4_program_sections K0 c1wBytes [] initState 0
    ⟨some "kprobe/foo", 1, 0, 8, 0⟩ "kprobe/foo" "foo" (List.replicate 8 0)
    (by decide) (by decide) (by decide)).1 (by decide) (by decide)

/-- Claim C4, counterexample: an object whose only section is a PROGBITS
section named `xdp/eth0` parses to a module with no programs at all. -/
theorem c4_counterexample :
    (match Module.parse K0 (List.replicate 8 0) c4Obj with
      | some (.ok m) => m.programs
      | _ => [(0, p0)]) = [] := by decide

/-- Claim C5: when a pending relocation's target program is missing from
the parsed program collection, or its symbol's section index carries no
map, `Module::parse` returns `LoadError::Reloc` (given the relocations
before it applied cleanly). -/
theorem c5_unresolved_relocation (K : Kernel) (bytes : List Nat)
    (object : ElfObject) (st : ParseState) (pre : List Rel) (r : Rel)
    (rest : List Rel) (progs1 : List (Nat × Program))
    (hst : processSections K bytes object.shdr_relocs
      object.section_headers.enum initState = some (.ok st))
    (hrels : st.rels = pre ++ r :: rest)
    (hpre : applyAll pre st.programs st.maps object.syms = some (.ok progs1))
    (hmiss : lookupA st.programs r.target = none ∨
      ∃ s, object.syms[r.sym]? = some s ∧ lookupA st.maps s.st_shndx = none) :
    Module.parse K bytes object = some (.error LoadError.Reloc) := by
  have hmiss1 : lookupA progs1 r.target = none ∨
      ∃ s, object.syms[r.sym]? = some s ∧ lookupA st.maps s.st_shndx = none := by
    rcases hmiss with hm | hm
    · left
      have hsm := applyAll_lookup_isSome hpre r.target
      rw [hm] at hsm
      cases hl : lookupA progs1 r.target with
      | none => rfl
      | some p => rw [hl] at hsm; simp at hsm
    · right
      exact hm
  have happ : applyAll st.rels st.programs st.maps object.syms
      = some (.error .Reloc) := by
    rw [hrels, applyAll_append_ok (r :: rest) hpre]
    exact applyAll_cons_error rest (apply_error_of_missing hmiss1)
  simp [Module.parse, hst, happ]

/-- Claim C5, witness instance: a relocation targeting section 7 of an
object with no programs makes `Module::parse` fail with `Reloc`. -/
theorem c5_unresolved_relocation_witness :
    Module.parse K0 [] c5wObj = some (.error LoadError.Reloc) :=
  c5_unresolved_relocation K0 [] c5wObj c5wState [] ⟨0, 7, 0, 0⟩ [] []
    (by decide) (by decide) (by decide) (Or.inl (by decide))

/-- Claim C6: a recognized section whose declared range runs past the end
of the byte buffer, or whose payload is shorter than its fixed layout,
makes `Module::parse` panic (the model's `none`: the unchecked slice in
`data`, and the length assert inside `zero::read`) rather than return a
`ParseError`. -/
theorem c6_truncation_panics :
    Module.parse K0 [71, 80, 76, 0] c6Obj = none ∧
    data [71, 80, 76, 0] c6Shdr = none ∧
    Module.parse K0 [254, 255] c6Obj2 = none := by decide

/-- Claim C7, amended: when `prog_load` returns a negative descriptor,
`Program::load` returns `Err(LoadError::BPF)` — a unit error value that
does not carry the verifier log — and leaves the program, in particular
its load handle `fd`, untouched. -/
theorem c7_load_failure (p : Program) (K : Kernel) (kv : Nat) (lic : String)
    (hl : hasNul lic = false) (hn : hasNul p.name = false)
    (hfd : (K.progLoad p.kind.to_prog_type p.name p.code p.code_bytes lic kv
      logBufferSize).1 < 0) :
    Program.load p K kv lic = (p, .error .BPF) := by
  simp [Program.load, hl, hn, hfd]

/-- Claim C7, amended, witness instance. -/
theorem c7_load_failure_witness :
    Program.load p0 c7K1 0 "GPL" = (p0, .error .BPF) :=
  c7_load_failure p0 c7K1 0 "GPL" (by decide) (by decide) (by decide)

/-- Claim C7, counterexample to the claim that the error carries the
verifier log: two kernels whose failing `prog_load` write different logs
(`[65]` and `[66]`) produce the very same error value `LoadError::BPF`, so
the returned error cannot carry the log contents. -/
theorem c7_counterexample :
    Program.load p0 c7K1 0 "GPL" = (p0, .error .BPF) ∧
    Program.load p0 c7K2 0 "GPL" = (p0, .error .BPF) ∧
    (c7K1.progLoad 2 "foo" [] 0 "GPL" 0 65535).2 = [65] ∧
    (c7K2.progLoad 2 "foo" [] 0 "GPL" 0 65535).2 = [66] := by decide

/-- Claim C8: in every reachable program state, a set attach handle `pfd`
implies a set load handle `fd` — `Program::attach` unwraps `fd` before it
can ever store `pfd`, and no operation ever clears `fd`. -/
theorem c8_attached_implies_loaded (p : Program) (h : Reachable p)
    (ha : p.is_attached = true) : p.is_loaded = true := by
  induction h with
  | new kind name code p hnew =>
    cases hra : read_array code with
    | none => simp only [Program.new, hra] at hnew; cases hnew
    | some insns =>
      cases hfs : ProgramKind.from_section kind with
      | error e => simp only [Program.new, hra, hfs] at hnew; cases hnew
      | ok k =>
        simp only [Program.new, hra, hfs, Option.some.injEq,
          Except.ok.injEq] at hnew
        rw [← hnew] at ha
        simp [Program.is_attached] at ha
  | patch p idx i hp ih =>
    exact ih ha
  | load p K kv lic p2 r hp hload ih =>
    by_cases h1 : hasNul lic
    · simp only [Program.load, h1, if_true, Prod.mk.injEq] at hload
      rw [← hload.1]
      rw [← hload.1] at ha
      exact ih ha
    · by_cases h2 : hasNul p.name
      · simp only [Program.load, h1, h2, Bool.false_eq_true, if_false,
          if_true, Prod.mk.injEq] at hload
        rw [← hload.1]
        rw [← hload.1] at ha
        exact ih ha
      · by_cases h3 : (K.progLoad p.kind.to_prog_type p.name p.code
            p.code_bytes lic kv logBufferSize).1 < 0
        · simp only [Program.load, h1, h2, Bool.false_eq_true, if_false,
            h3, if_true, Prod.mk.injEq] at hload
          rw [← hload.1]
          rw [← hload.1] at ha
          exact ih ha
        · simp only [Program.load, h1, h2, Bool.false_eq_true, if_false,
            h3, Prod.mk.injEq] at hload
          rw [← hload.1]
          rfl
  | attach p K p2 r hp hatt ih =>
    by_cases h1 : hasNul p.name
    · simp only [Program.attach, h1, if_true] at hatt
      cases hatt
    · cases hfd : p.fd with
      | none =>
        simp only [Program.attach, h1, Bool.false_eq_true, if_false,
          hfd] at hatt
        cases hatt
      | some fd =>
        by_cases h3 : K.attachKprobe fd p.kind.to_attach_type p.name < 0
        · simp only [Program.attach, h1, Bool.false_eq_true, if_false, hfd,
            h3, if_true, Option.some.injEq, Prod.mk.injEq] at hatt
          rw [← hatt.1]
          rw [← hatt.1] at ha
          exact ih ha
        · simp only [Program.attach, h1, Bool.false_eq_true, if_false, hfd,
            h3, Option.some.injEq, Prod.mk.injEq] at hatt
          rw [← hatt.1]
          simp [Program.is_loaded, hfd]

/-- Claim C8, witness instance: new → load (fd 3) → attach (pfd 4) reaches
an attached state whose load handle is indeed set. -/
theorem c8_attached_implies_loaded_witness :
    (Program.mk (some 4) (some 3) ProgramKind.Kprobe "foo" [] 0).is_loaded
      = true :=
  c8_attached_implies_loaded
    (Program.mk (some 4) (some 3) ProgramKind.Kprobe "foo" [] 0)
    (Reachable.attach (Program.mk none (some 3) ProgramKind.Kprobe "foo" [] 0)
      K0 (Program.mk (some 4) (some 3) ProgramKind.Kprobe "foo" [] 0) (.ok 4)
      (Reachable.load (Program.mk none none ProgramKind.Kprobe "foo" [] 0)
        K0 0 "GPL" (Program.mk none (some 3) ProgramKind.Kprobe "foo" [] 0)
        (.ok 3)
        (Reachable.new "kprobe" "foo" []
          (Program.mk none none ProgramKind.Kprobe "foo" [] 0) (by decide))
        (by decide))
      (by decide))
    (by decide)

/-- Claim C9, amended: the log buffer `Program::load` hands `prog_load` is
65535 bytes — one byte short of 64 KiB — as witnessed by a kernel oracle
that returns the size argument it received. -/
theorem c9_log_buffer_size :
    logBufferSize = 65535 ∧
    Program.load p0 c9K 0 "GPL" =
      (Program.mk none (some 65535) ProgramKind.Kprobe "foo" [] 0,
        .ok 65535) := by decide

/-- Claim C9, counterexample: the size passed to the syscall equals
`logBufferSize = 65535`, which is not at least 65536. -/
theorem c9_counterexample :
    (Program.load p0 c9K 0 "GPL").2 = .ok ((logBufferSize : Nat) : Int) ∧
    ¬ 65536 ≤ logBufferSize := by decide

/-- Claim C10: calling `Program::attach` on a program whose load handle is
unset panics (`self.fd.unwrap()` on `None`) — the model's `none` — and in
particular never returns an error value. -/
theorem c10_attach_unloaded_panics (p : Program) (K : Kernel)
    (h : p.is_loaded = false) : Program.attach p K = none := by
  have hfd : p.fd = none := by
    cases hf : p.fd with
    | none => rfl
    | some fd => simp [Program.is_loaded, hf] at h
  by_cases hn : hasNul p.name
  · simp [Program.attach, hn]
  · simp [Program.attach, hn, hfd]

/-- Claim C10, witness instance: attaching the never-loaded `p0` panics. -/
theorem c10_attach_unloaded_panics_witness :
    Program.attach p0 K0 = none :=
  c10_attach_unloaded_panics p0 K0 (by decide)

end Redbpf
